import Mathlib

/-!
Verification of the turn-orchestration and content-classification engine of the
healthcare concierge (source: `health_new.py`).

The Python source is shallowly embedded below.  Strings are modelled by Lean
strings (a `String` is a list of Unicode code points, matching Python `str`
semantics for `in`, `len`, slicing-free code).  Python `x in s` (substring
test), `s.replace(pat, "")`, `s.strip()` and `s.lower()` are given explicit
executable models (`containsSubstr`, `pyReplace`, `pyStrip`, `lowerStr`).
External effects (HTTP lookups, the wall clock, the `random` module) are
passed as explicit parameters, as recorded at each definition.
-/

namespace HealthConcierge

/-- Boolean test that `pat` is a prefix of `s`, on code-point lists. -/
def isPrefixList (pat s : List Char) : Bool :=
  match pat, s with
  | [], _ => true
  | _ :: _, [] => false
  | a :: as, b :: bs => a = b && isPrefixList as bs

/-- Boolean substring test on code-point lists: some suffix of `s` starts with `pat`. -/
def containsList (pat : List Char) : List Char → Bool
  | [] => isPrefixList pat []
  | c :: t => isPrefixList pat (c :: t) || containsList pat t

/-- Model of the Python substring test `pat in s`. -/
def containsSubstr (s pat : String) : Bool :=
  containsList pat.data s.data

/-- Model of Python `str.lower` (the markers and tokens compared in the source
are ASCII, where `Char.toLower` agrees with Python). -/
def lowerStr (s : String) : String :=
  ⟨s.data.map Char.toLower⟩

/-- Helper for `pyReplace`: fuel-indexed left-to-right non-overlapping
replacement of `pat` by `rep`, exactly the semantics of Python `str.replace`
for a non-empty pattern. -/
def replaceListAux (pat rep : List Char) : Nat → List Char → List Char
  | 0, s => s
  | _ + 1, [] => []
  | fuel + 1, c :: t =>
    if isPrefixList pat (c :: t) then
      rep ++ replaceListAux pat rep fuel ((c :: t).drop pat.length)
    else
      c :: replaceListAux pat rep fuel t

/-- Model of Python `s.replace(pat, rep)`.  The empty-pattern case never
arises in the embedded code (all replaced phrases are fixed non-empty
strings); it is mapped to the identity. -/
def pyReplace (s pat rep : String) : String :=
  if pat.data = [] then s
  else ⟨replaceListAux pat.data rep.data s.data.length s.data⟩

/-- Model of Python `s.strip()`: remove leading and trailing whitespace. -/
def pyStrip (s : String) : String :=
  ⟨((s.data.dropWhile Char.isWhitespace).reverse.dropWhile Char.isWhitespace).reverse⟩

/-- A transcript entry as consumed by `is_termination_msg` and the extractor in
`chat_fn`: Python reads `msg.get("name", "")` and `str(msg.get("content", ""))`. -/
structure Msg where
  name : String
  content : String
  deriving DecidableEq

/-- Embedding of `is_termination_msg` (health_new.py, lines 777-797): the
termination classifier passed to the `GroupChatManager`. -/
def is_termination_msg (m : Msg) : Bool :=
  if m.name = "SafetyGuardrail" && containsSubstr m.content "988" then true
  else if m.name = "EmergencyTriage" && containsSubstr m.content "⚠️"
      && containsSubstr m.content "911" then true
  else if m.name = "HealthCoordinator" && containsSubstr m.content "?" then true
  else if containsSubstr m.content "I\x27ve provided" then true
  else false

/-- C1: the termination classifier declares termination exactly on the four
listed marker conditions — safety role with the crisis-hotline marker 988,
emergency role with both the warning marker and 911, coordinator with a
question mark, or the hand-off marker from any speaker — and on no other
message. -/
theorem C1_termination_iff (m : Msg) :
    is_termination_msg m = true ↔
      (m.name = "SafetyGuardrail" ∧ containsSubstr m.content "988" = true) ∨
      (m.name = "EmergencyTriage" ∧ containsSubstr m.content "⚠️" = true ∧
        containsSubstr m.content "911" = true) ∨
      (m.name = "HealthCoordinator" ∧ containsSubstr m.content "?" = true) ∨
      containsSubstr m.content "I\x27ve provided" = true := by
  unfold is_termination_msg
  repeat' split
  all_goals simp_all

/-- Names treated as normal display candidates by the extractor in `chat_fn`
(health_new.py, lines 898-899). -/
def specialNames : List String :=
  ["HealthCoordinator", "PharmacySpecialist", "TimeSpecialist",
   "MedicationSpecialist", "AppointmentSpecialist"]

/-- Embedding of the reverse-scan extraction loop of `chat_fn` (health_new.py,
lines 872-907).  The argument list is the transcript already reversed (the
source iterates `reversed(msgs)`); the result is the selected raw content with
the `show_crisis` and `show_emergency` flags, or `none` when no message
qualifies (`response_text` left empty). -/
def findResponse : List Msg → Option (String × Bool × Bool)
  | [] => none
  | m :: rest =>
    if m.name = "User" || m.content = "" then findResponse rest
    else if containsSubstr m.content "***** Suggested tool"
        || containsSubstr m.content "***** Response from calling tool" then
      findResponse rest
    else if m.name = "SafetyGuardrail" && containsSubstr m.content "988" then
      some (m.content, true, false)
    else if m.name = "EmergencyTriage" && containsSubstr m.content "⚠️"
        && (containsSubstr m.content "911" || containsSubstr m.content "ER") then
      some (m.content, false, true)
    else if specialNames.contains m.name then
      if containsSubstr m.content "sees no crisis"
          || containsSubstr m.content "sees no emergency" then
        findResponse rest
      else if m.content.length > 10 then some (m.content, false, false)
      else findResponse rest
    else findResponse rest

/-- Fallback reply used when no transcript message qualifies
(health_new.py, line 910). -/
def fallbackText : String := "I\x27m here to help. What\x27s on your mind?"

/-- The six fixed phrases removed from the selected reply, in source order
(health_new.py, lines 913-918). -/
def handoffPhrases : List String :=
  ["HealthCoordinator, I\x27ve provided the pharmacy options.",
   "HealthCoordinator, I\x27ve provided the time.",
   "HealthCoordinator, I\x27ve provided the medication information.",
   "HealthCoordinator, I\x27ve provided the appointment options.",
   "SafetyGuardrail has detected a crisis.",
   "EmergencyTriage has flagged this as urgent."]

/-- Embedding of the clean-up block of `chat_fn` (health_new.py, lines
913-918): each phrase is replaced by the empty string and the text stripped,
in source order. -/
def cleanupText (t : String) : String :=
  handoffPhrases.foldl (fun acc p => pyStrip (pyReplace acc p "")) t

/-- Embedding of the reply computation of `chat_fn` (health_new.py, lines
864-918): reverse-scan extraction, fallback when nothing qualifies, then
phrase clean-up.  A selected message always has non-empty content (the scan
skips empty entries), so the fallback fires exactly when the scan fails. -/
def chat_fn_reply (msgs : List Msg) : String × Bool × Bool :=
  match findResponse msgs.reverse with
  | some (t, c, e) => (cleanupText t, c, e)
  | none => (cleanupText fallbackText, false, false)

/-- Entries the claimed extraction description skips: user entries, empty
entries and tool-log pseudo-entries.  Stated from the wording of claim C2. -/
def claimSkip (m : Msg) : Bool :=
  m.name = "User" || m.content = ""
    || containsSubstr m.content "***** Suggested tool"
    || containsSubstr m.content "***** Response from calling tool"

/-- Priority classification of one entry exactly as claim C2 words it: crisis
requires the safety role and the marker 988; emergency requires the emergency
role, the warning marker and the emergency-action marker 911; the normal class
requires a coordinator or specialist name, no clearance phrase, and content
longer than 10 characters.  The returned pair is (crisisFlag, emergencyFlag). -/
def claimClass (m : Msg) : Option (Bool × Bool) :=
  if m.name = "SafetyGuardrail" && containsSubstr m.content "988" then
    some (true, false)
  else if m.name = "EmergencyTriage" && containsSubstr m.content "⚠️"
      && containsSubstr m.content "911" then
    some (false, true)
  else if specialNames.contains m.name
      && !(containsSubstr m.content "sees no crisis"
            || containsSubstr m.content "sees no emergency")
      && m.content.length > 10 then
    some (false, false)
  else none

/-- Amended per-entry classification: identical to `claimClass` except that
the emergency-action marker may be either 911 or the literal ER, as the code
accepts (health_new.py, line 891). -/
def amendedClass (m : Msg) : Option (Bool × Bool) :=
  if m.name = "SafetyGuardrail" && containsSubstr m.content "988" then
    some (true, false)
  else if m.name = "EmergencyTriage" && containsSubstr m.content "⚠️"
      && (containsSubstr m.content "911" || containsSubstr m.content "ER") then
    some (false, true)
  else if specialNames.contains m.name
      && !(containsSubstr m.content "sees no crisis"
            || containsSubstr m.content "sees no emergency")
      && m.content.length > 10 then
    some (false, false)
  else none

/-- Scan described by claim C2: walk the (already reversed) transcript, skip
the skippable entries, and return the first entry matched by a classifier. -/
def classScan (cls : Msg → Option (Bool × Bool)) : List Msg → Option (String × Bool × Bool)
  | [] => none
  | m :: rest =>
    if claimSkip m then classScan cls rest
    else
      match cls m with
      | some (c, e) => some (m.content, c, e)
      | none => classScan cls rest

/-- Reply computation as claim C2 words it (with the clean-up of the spec
applied to the selected text). -/
def claimReply (msgs : List Msg) : String × Bool × Bool :=
  match classScan claimClass msgs.reverse with
  | some (t, c, e) => (cleanupText t, c, e)
  | none => (cleanupText fallbackText, false, false)

/-- Reply computation under the amended classification. -/
def amendedReply (msgs : List Msg) : String × Bool × Bool :=
  match classScan amendedClass msgs.reverse with
  | some (t, c, e) => (cleanupText t, c, e)
  | none => (cleanupText fallbackText, false, false)

/-- Key refinement step: the reverse-scan loop of `chat_fn` coincides with the
skip-then-classify description once the emergency class accepts 911 or ER. -/
theorem findResponse_eq_amendedScan (l : List Msg) :
    findResponse l = classScan amendedClass l := by
  induction l with
  | nil => rfl
  | cons m rest ih =>
    simp only [findResponse, classScan]
    by_cases h1 : (decide (m.name = "User") || decide (m.content = "")) = true
    · have hs : claimSkip m = true := by
        simp only [claimSkip, Bool.or_eq_true] at h1 ⊢
        tauto
      rw [if_pos h1, if_pos hs]
      exact ih
    · by_cases h2 : (containsSubstr m.content "***** Suggested tool"
          || containsSubstr m.content "***** Response from calling tool") = true
      · have hs : claimSkip m = true := by
          simp only [claimSkip, Bool.or_eq_true] at h1 h2 ⊢
          tauto
        rw [if_neg h1, if_pos h2, if_pos hs]
        exact ih
      · have hs : ¬ claimSkip m = true := by
          simp only [claimSkip, Bool.or_eq_true] at h1 h2 ⊢
          tauto
        rw [if_neg h1, if_neg h2, if_neg hs]
        by_cases h3 : (m.name = "SafetyGuardrail" && containsSubstr m.content "988") = true
        · have hm : amendedClass m = some (true, false) := by
            unfold amendedClass
            rw [if_pos h3]
          rw [if_pos h3, hm]
        · by_cases h4 : (m.name = "EmergencyTriage" && containsSubstr m.content "⚠️"
              && (containsSubstr m.content "911" || containsSubstr m.content "ER")) = true
          · have hm : amendedClass m = some (false, true) := by
              unfold amendedClass
              rw [if_neg h3, if_pos h4]
            rw [if_neg h3, if_pos h4, hm]
          · by_cases h5 : specialNames.contains m.name = true
            · by_cases h6 : (containsSubstr m.content "sees no crisis"
                  || containsSubstr m.content "sees no emergency") = true
              · have hm : amendedClass m = none := by
                  unfold amendedClass
                  rw [if_neg h3, if_neg h4, if_neg (by simp [h6])]
                rw [if_neg h3, if_neg h4, if_pos h5, if_pos h6, hm]
                exact ih
              · have h6f : (containsSubstr m.content "sees no crisis"
                    || containsSubstr m.content "sees no emergency") = false := by
                  simpa using h6
                by_cases h7 : m.content.length > 10
                · have hm : amendedClass m = some (false, false) := by
                    unfold amendedClass
                    rw [if_neg h3, if_neg h4, if_pos (by rw [h5, h6f]; simpa using h7)]
                  rw [if_neg h3, if_neg h4, if_pos h5, if_neg h6, if_pos h7, hm]
                · have hm : amendedClass m = none := by
                    unfold amendedClass
                    rw [if_neg h3, if_neg h4, if_neg (by simp [h7])]
                  rw [if_neg h3, if_neg h4, if_pos h5, if_neg h6, if_neg h7, hm]
                  exact ih
            · have h5f : specialNames.contains m.name = false := by
                simpa using h5
              have hm : amendedClass m = none := by
                unfold amendedClass
                rw [if_neg h3, if_neg h4, if_neg (by rw [h5f]; simp)]
              rw [if_neg h3, if_neg h4, if_neg h5, hm]
              exact ih

/-- C2 counterexample: an emergency-role message carrying the warning marker
and the literal ER but not 911.  The code extracts it and raises the emergency
flag; the claimed description (emergency-action marker fixed to 911) skips it
and falls back, so the claim as stated disagrees with the code. -/
theorem C2_counterexample :
    chat_fn_reply [⟨"EmergencyTriage", "⚠️ Go to the ER right away, this is urgent"⟩]
      ≠ claimReply [⟨"EmergencyTriage", "⚠️ Go to the ER right away, this is urgent"⟩]
    ∧ (chat_fn_reply [⟨"EmergencyTriage", "⚠️ Go to the ER right away, this is urgent"⟩]).2.2 = true
    ∧ (claimReply [⟨"EmergencyTriage", "⚠️ Go to the ER right away, this is urgent"⟩]).2.2 = false := by
  refine ⟨?_, by decide, by decide⟩
  decide

/-- C2 amended: the extractor scans the transcript in reverse, skipping user,
empty and tool-log entries, and returns the first entry matched in priority
order crisis, then emergency, then normal — where the emergency class accepts
the warning marker together with 911 or the literal ER — with the alert flags
set by the matching class and the hand-off clean-up applied to the text. -/
theorem C2_amended_extraction (msgs : List Msg) :
    chat_fn_reply msgs = amendedReply msgs := by
  unfold chat_fn_reply amendedReply
  rw [findResponse_eq_amendedScan]

/-- C8 counterexample: a crisis-branch reply may carry a clearance phrase into
the displayed text.  The safety-role message below contains the hotline marker
988, so it is selected with the crisis flag raised, and the clean-up block
replaces only the six fixed hand-off phrases — the clearance phrase
"sees no crisis" survives into the returned text, contradicting the claim that
all clearance phrases are stripped before display. -/
theorem C8_counterexample :
    containsSubstr
        (chat_fn_reply [⟨"SafetyGuardrail",
          "Please call 988 now. SafetyGuardrail sees no crisis."⟩]).1
        "sees no crisis" = true
    ∧ (chat_fn_reply [⟨"SafetyGuardrail",
        "Please call 988 now. SafetyGuardrail sees no crisis."⟩]).2.1 = true := by
  constructor
  · decide
  · decide

/-- C8 amended: after selection, the displayed reply is exactly the selected
text with the six fixed hand-off phrases removed in source order and
whitespace stripped; each of the six phrases is erased by the clean-up; and
clearance messages are excluded during selection rather than textually
stripped — a reply selected by the normal branch never contains a clearance
phrase, while a crisis- or emergency-branch reply may retain one. -/
theorem C8_amended_cleanup :
    (∀ msgs t c e, findResponse msgs.reverse = some (t, c, e) →
        chat_fn_reply msgs = (cleanupText t, c, e))
    ∧ (∀ l t, findResponse l = some (t, false, false) →
        containsSubstr t "sees no crisis" = false
          ∧ containsSubstr t "sees no emergency" = false)
    ∧ (∀ p ∈ handoffPhrases, cleanupText p = "") := by
  refine ⟨?_, ?_, ?_⟩
  · intro msgs t c e h
    unfold chat_fn_reply
    rw [h]
  · intro l
    induction l with
    | nil =>
      intro t h
      exact absurd h (by simp [findResponse])
    | cons m rest ih =>
      intro t h
      simp only [findResponse] at h
      repeat' split at h
      all_goals first
        | exact ih t h
        | simp_all
  · intro p hp
    fin_cases hp <;> decide

/-- C8 amended witness: a specialist reply ending in its hand-off phrase is
selected by the normal branch and displayed with the phrase removed. -/
theorem C8_amended_cleanup_witness :
    findResponse ([(⟨"PharmacySpecialist",
        "I found two pharmacies nearby. HealthCoordinator, I\x27ve provided the pharmacy options."⟩ : Msg)].reverse)
      = some ("I found two pharmacies nearby. HealthCoordinator, I\x27ve provided the pharmacy options.", false, false)
    ∧ chat_fn_reply [⟨"PharmacySpecialist",
        "I found two pharmacies nearby. HealthCoordinator, I\x27ve provided the pharmacy options."⟩]
      = (cleanupText "I found two pharmacies nearby. HealthCoordinator, I\x27ve provided the pharmacy options.",
          false, false) :=
  ⟨by decide, C8_amended_cleanup.1 _ _ _ _ (by decide)⟩

/-- First result of the OpenFDA drug-label lookup, as read by
`check_medication_coverage`: the two `openfda` fields it consumes.  `none`
models an absent key, `some l` a present JSON array `l`. -/
structure DrugInfo where
  product_type : Option (List String)
  pharm_class_epc : Option (List String)
  deriving DecidableEq

/-- Outcome of the upstream HTTP lookup in `check_medication_coverage`:
`exn` covers any raised error (connection failure, timeout, malformed JSON),
otherwise a status code with the parsed `results` array. -/
inductive FDAResponse where
  | exn : FDAResponse
  | success (status : Nat) (results : List DrugInfo) : FDAResponse
  deriving DecidableEq

/-- Coverage record returned by `check_medication_coverage`.  The fall-through
return carries no `drug_class` key, modelled by `none`. -/
structure Coverage where
  medication : String
  covered : String
  copay : String
  drug_class : Option String
  prescription_required : Bool
  deriving DecidableEq

/-- Fall-through result of `check_medication_coverage` (health_new.py, lines
352-357), returned on any upstream failure, non-200 status or empty results. -/
def unknownCoverage (medication : String) : Coverage :=
  ⟨medication, "Unknown", "Contact provider", none, true⟩

/-- Fixed major-insurer token list (health_new.py, line 323). -/
def majorInsurers : List String :=
  ["united", "blue cross", "aetna", "cigna", "humana", "kaiser", "medicare", "medicaid"]

/-- Model of the Python read `openfda.get("product_type", [""])[0]`: a missing
key defaults to the one-element array of the empty string, a present empty
array raises IndexError (mapped to `none`, absorbed by the outer handler). -/
def firstProductType (pt : Option (List String)) : Option String :=
  match pt with
  | none => some ""
  | some [] => none
  | some (x :: _) => some x

/-- Embedding of `HealthcareAPIs.check_medication_coverage` (health_new.py,
lines 299-357).  The upstream lookup is passed as the explicit `resp`
parameter; every other step of the source is reproduced: OTC/prescription
classification from the first product type, drug class from the first
`pharm_class_epc` entry, and the case-insensitive substring match of the
insurance name against the fixed major-insurer list.  The function is total:
no path raises. -/
def check_medication_coverage (insurance medication : String) (resp : FDAResponse) : Coverage :=
  match resp with
  | .exn => unknownCoverage medication
  | .success status results =>
    if status = 200 then
      match results with
      | [] => unknownCoverage medication
      | info :: _ =>
        match firstProductType info.product_type with
        | none => unknownCoverage medication
        | some pt0 =>
          let product_type := lowerStr pt0
          let is_rx := containsSubstr product_type "prescription"
          let is_otc := containsSubstr product_type "otc" || !is_rx
          let drug_class :=
            match info.pharm_class_epc.getD [] with
            | [] => "Unknown"
            | x :: _ => x
          let insurance_lower := lowerStr insurance
          let is_major := majorInsurers.any (fun ins => containsSubstr insurance_lower ins)
          if is_otc then
            ⟨medication, "OTC - Generally not covered", "$0-$15 (out of pocket)",
              some drug_class, false⟩
          else if is_major then
            ⟨medication, "Yes", "$10-$50 (varies by plan tier)", some drug_class, true⟩
          else
            ⟨medication, "Unknown", "Contact provider", some drug_class, is_rx⟩
    else unknownCoverage medication

/-- Upstream-failure predicate for claim C7: a raised error, a non-200 status,
or a well-formed response with an empty results array. -/
def isUpstreamFailure : FDAResponse → Prop
  | .exn => True
  | .success status results => status ≠ 200 ∨ results = []

instance : DecidablePred isUpstreamFailure := by
  intro resp
  cases resp with
  | exn => exact .isTrue trivial
  | success status results => exact inferInstanceAs (Decidable (status ≠ 200 ∨ results = []))

/-- C6: when the first returned drug record classifies the medication as OTC
(its first product-type entry contains "otc", or fails to contain
"prescription"), the coverage result is the fixed OTC record — covered
"OTC - Generally not covered", copay range $0-$15, no prescription required —
and the insurance argument is irrelevant to the result. -/
theorem C6_otc_coverage_fixed (insurance insurance2 medication : String)
    (info : DrugInfo) (rest : List DrugInfo) (pt0 : String)
    (hpt : firstProductType info.product_type = some pt0)
    (hotc : (containsSubstr (lowerStr pt0) "otc"
        || !containsSubstr (lowerStr pt0) "prescription") = true) :
    check_medication_coverage insurance medication (.success 200 (info :: rest))
      = ⟨medication, "OTC - Generally not covered", "$0-$15 (out of pocket)",
          some (match info.pharm_class_epc.getD [] with
                | [] => "Unknown"
                | x :: _ => x), false⟩
    ∧ check_medication_coverage insurance medication (.success 200 (info :: rest))
      = check_medication_coverage insurance2 medication (.success 200 (info :: rest)) := by
  constructor
  · simp only [check_medication_coverage, hpt, hotc, if_true]
  · simp only [check_medication_coverage, hpt, hotc, if_true]

/-- C6 witness: an OTC-labelled drug record gives the fixed OTC result for two
different insurance strings. -/
theorem C6_otc_coverage_fixed_witness :
    check_medication_coverage "Acme Health" "ibuprofen"
        (.success 200 [⟨some ["HUMAN OTC DRUG"], some ["NSAID"]⟩])
      = ⟨"ibuprofen", "OTC - Generally not covered", "$0-$15 (out of pocket)",
          some "NSAID", false⟩
    ∧ check_medication_coverage "Acme Health" "ibuprofen"
        (.success 200 [⟨some ["HUMAN OTC DRUG"], some ["NSAID"]⟩])
      = check_medication_coverage "United Health Care" "ibuprofen"
        (.success 200 [⟨some ["HUMAN OTC DRUG"], some ["NSAID"]⟩]) :=
  C6_otc_coverage_fixed "Acme Health" "United Health Care" "ibuprofen"
    ⟨some ["HUMAN OTC DRUG"], some ["NSAID"]⟩ [] "HUMAN OTC DRUG"
    (by decide) (by decide)

/-- C7: every upstream failure — a raised error, a non-200 status, or a
well-formed response with no results — yields the fixed unknown coverage
record (covered "Unknown", copay "Contact provider"); the embedded function is
total, so no exception escapes to the caller. -/
theorem C7_failure_degrades_to_unknown (insurance medication : String)
    (resp : FDAResponse) (h : isUpstreamFailure resp) :
    check_medication_coverage insurance medication resp = unknownCoverage medication := by
  cases resp with
  | exn => rfl
  | success status results =>
    cases h with
    | inl hst =>
      simp only [check_medication_coverage]
      rw [if_neg hst]
    | inr hres =>
      subst hres
      simp only [check_medication_coverage]
      by_cases hst : status = 200
      · rw [if_pos hst]
      · rw [if_neg hst]

/-- C7 witness: a raised lookup error yields the unknown coverage record. -/
theorem C7_failure_degrades_to_unknown_witness :
    isUpstreamFailure FDAResponse.exn
    ∧ check_medication_coverage "United Health Care" "amoxicillin" FDAResponse.exn
      = unknownCoverage "amoxicillin" :=
  ⟨trivial, C7_failure_degrades_to_unknown "United Health Care" "amoxicillin" .exn trivial⟩

/-- C10: when the lookup succeeds with a first record whose extracted product
type contains neither "prescription" nor "otc" — including a missing
product-type key, which the source defaults to the empty string, and an empty
first entry — the medication is classified OTC because `is_rx` is false, so
the caller receives the fixed OTC record with no prescription required rather
than an unknown classification. -/
theorem C10_unmarked_product_type_is_otc (insurance medication : String)
    (info : DrugInfo) (rest : List DrugInfo) (pt0 : String)
    (hpt : firstProductType info.product_type = some pt0)
    (hrx : containsSubstr (lowerStr pt0) "prescription" = false)
    (hotc : containsSubstr (lowerStr pt0) "otc" = false) :
    check_medication_coverage insurance medication (.success 200 (info :: rest))
      = ⟨medication, "OTC - Generally not covered", "$0-$15 (out of pocket)",
          some (match info.pharm_class_epc.getD [] with
                | [] => "Unknown"
                | x :: _ => x), false⟩ := by
  simp only [check_medication_coverage, hpt, hrx, hotc, Bool.not_false, Bool.or_true, if_true]

/-- C10 witness: a record with the product-type key absent is classified OTC. -/
theorem C10_unmarked_product_type_is_otc_witness :
    firstProductType (none : Option (List String)) = some ""
    ∧ check_medication_coverage "Acme Health" "mystery-drug"
        (.success 200 [⟨none, none⟩])
      = ⟨"mystery-drug", "OTC - Generally not covered", "$0-$15 (out of pocket)",
          some "Unknown", false⟩ :=
  ⟨rfl, C10_unmarked_product_type_is_otc "Acme Health" "mystery-drug"
    ⟨none, none⟩ [] "" rfl (by decide) (by decide)⟩

/-- Value of an ASCII digit, the digit class used by the hours pattern
(Python matches further Unicode digits; the embedded strings are ASCII). -/
def readDigit (c : Char) : Option Nat :=
  if c.isDigit then some (c.toNat - 48) else none

/-- Greedy parse of the close-hour group at the head of the list: two digits
if available, else one.  Nothing after this group in the pattern can fail, so
the greedy choice is final. -/
def closeHourAt : List Char → Option Nat
  | [] => none
  | [c] => readDigit c
  | c1 :: c2 :: _ =>
    match readDigit c1, readDigit c2 with
    | some d1, some d2 => some (10 * d1 + d2)
    | some d1, none => some d1
    | none, _ => none

/-- Maximal-munch whitespace skip, the safe reading of a whitespace-star step
whose follower can never be whitespace. -/
def eatWs : List Char → List Char
  | [] => []
  | c :: t => if c.isWhitespace then eatWs t else c :: t

/-- Match the tail of the hours pattern: optional whitespace, a hyphen or an
en dash, optional whitespace, then the close-hour group. -/
def dashPart (l : List Char) : Option Nat :=
  match eatWs l with
  | [] => none
  | c :: rest => if c = '-' ∨ c = '–' then closeHourAt (eatWs rest) else none

/-- Optional two-digit minutes group after the open hour, greedy branch first,
with backtracking to the empty branch on failure of the rest. -/
def cAlts (l : List Char) : Option Nat :=
  (match l with
   | c1 :: c2 :: rest =>
     if (readDigit c1).isSome ∧ (readDigit c2).isSome then dashPart rest else none
   | _ => none) <|> dashPart l

/-- Optional colon after the open hour, greedy branch first, with
backtracking. -/
def bAlts (l : List Char) : Option Nat :=
  (match l with
   | ':' :: rest => cAlts rest
   | _ => none) <|> cAlts l

/-- Match of the full hours pattern of `_parse_opening_hours` (health_new.py,
line 219) anchored at the head of the list, returning the two captured hour
groups: open hour (one or two digits, greedy with backtracking), optional
colon, optional minutes, whitespace, dash, whitespace, close hour.  The
trailing optional colon-and-minutes cannot influence the captured groups. -/
def matchHoursAt : List Char → Option (Nat × Nat)
  | [] => none
  | c1 :: rest1 =>
    match readDigit c1 with
    | none => none
    | some d1 =>
      (match rest1 with
       | c2 :: rest2 =>
         match readDigit c2 with
         | some d2 => (bAlts rest2).map (fun cl => (10 * d1 + d2, cl))
         | none => none
       | [] => none)
      <|> (bAlts rest1).map (fun cl => (d1, cl))

/-- Model of `re.search` for the hours pattern: leftmost starting position
wins. -/
def searchHours : List Char → Option (Nat × Nat)
  | [] => none
  | c :: rest => matchHoursAt (c :: rest) <|> searchHours rest

/-- Result dictionary of `_parse_opening_hours`.  A `none` in `is_open_now`
models an absent key (the unknown dictionary); `none` in `opens_at` or
`closes_at` models both an absent key and Python `None`. -/
structure HoursInfo where
  status : String
  is_open_now : Option Bool
  hours_text : String
  opens_at : Option String
  closes_at : Option String
  deriving DecidableEq

/-- Two-digit zero-padded rendering used for `opens_at`/`closes_at`. -/
def pad2 (n : Nat) : String :=
  if n < 10 then "0" ++ toString n else toString n

/-- Embedding of `HealthcareAPIs._parse_opening_hours` (health_new.py, lines
201-243).  The current hour, read in the source from the profile clock, is an
explicit parameter (the successful-clock path; a failed clock lookup returns
the unknown dictionary in the source).  The function is total: unparseable
input reaches the unknown dictionary, never an exception. -/
def parse_opening_hours (opening_hours : String) (current_hour : Nat) : HoursInfo :=
  if opening_hours = "24/7" || containsSubstr (lowerStr opening_hours) "24/7" then
    ⟨"open", some true, "Open 24 hours", none, none⟩
  else
    match searchHours opening_hours.data with
    | some (open_hour, close_hour) =>
      let is_open_now :=
        if close_hour < open_hour then
          decide (current_hour ≥ open_hour) || decide (current_hour < close_hour)
        else
          decide (open_hour ≤ current_hour) && decide (current_hour < close_hour)
      ⟨if is_open_now then "open" else "closed", some is_open_now, opening_hours,
        some (pad2 open_hour ++ ":00"), some (pad2 close_hour ++ ":00")⟩
    | none => ⟨"unknown", none, opening_hours, none, none⟩

/-- Helper: the status string is "open" exactly when the computed flag is
true. -/
theorem open_status_iff (b : Bool) :
    ((if b = true then "open" else "closed") : String) = "open" ↔ b = true := by
  cases b with
  | true => simp
  | false =>
    simp only [Bool.false_eq_true, if_false]
    constructor
    · intro hx
      exact absurd hx (by decide)
    · intro hx
      cases hx

/-- C3: whenever the pattern match extracts an open and a close hour, the
status is "open" exactly as the wraparound rule prescribes — for close before
open, open iff the hour is at or past opening or before closing; otherwise the
half-open interval test — with the overnight window "22:00-06:00" open at hour
23 and closed at hour 10; a 24/7 literal is detected first and reported open;
and a string with no pattern match yields status "unknown" (the embedded
function is total, so no exception is possible). -/
theorem C3_opening_hours :
    (∀ s h o c, (s = "24/7" || containsSubstr (lowerStr s) "24/7") = false →
        searchHours s.data = some (o, c) →
        ((parse_opening_hours s h).status = "open" ↔
          (if c < o then h ≥ o ∨ h < c else o ≤ h ∧ h < c)))
    ∧ (parse_opening_hours "22:00-06:00" 23).status = "open"
    ∧ (parse_opening_hours "22:00-06:00" 10).status = "closed"
    ∧ (∀ s h, containsSubstr (lowerStr s) "24/7" = true →
        (parse_opening_hours s h).status = "open")
    ∧ (∀ s h, (s = "24/7" || containsSubstr (lowerStr s) "24/7") = false →
        searchHours s.data = none →
        (parse_opening_hours s h).status = "unknown") := by
  refine ⟨?_, by decide, by decide, ?_, ?_⟩
  · intro s h o c h247 hsearch
    unfold parse_opening_hours
    rw [if_neg (by simp [h247]), hsearch]
    by_cases hlt : c < o
    · rw [if_pos hlt]
      simp only [HoursInfo.mk.injEq]
      rw [open_status_iff]
      simp [Bool.or_eq_true, decide_eq_true_eq, hlt]
    · rw [if_neg hlt]
      simp only [HoursInfo.mk.injEq]
      rw [open_status_iff]
      simp [Bool.and_eq_true, decide_eq_true_eq, hlt]
  · intro s h h247
    unfold parse_opening_hours
    rw [if_pos (by simp [h247])]
  · intro s h h247 hnone
    unfold parse_opening_hours
    rw [if_neg (by simp [h247]), hnone]

/-- C3 witness: the overnight window instance, discharging the hypotheses of
the conditional part at a concrete input. -/
theorem C3_opening_hours_witness :
    ("22:00-06:00" = "24/7" || containsSubstr (lowerStr "22:00-06:00") "24/7") = false
    ∧ searchHours "22:00-06:00".data = some (22, 6)
    ∧ (parse_opening_hours "22:00-06:00" 23).status = "open" :=
  ⟨by decide, by decide,
    (C3_opening_hours.1 "22:00-06:00" 23 22 6 (by decide) (by decide)).mpr (by decide)⟩

/-- Gregorian civil date (year, month, day) of a day count with day 0 =
1970-01-01, the calendar implemented by Python `datetime`; standard
era-based conversion, validated against `datetime` on sample days. -/
def civilFromDays (z0 : Nat) : Nat × Nat × Nat :=
  let z := z0 + 719468
  let era := z / 146097
  let doe := z % 146097
  let yoe := (doe - doe / 1460 + doe / 36524 - doe / 146096) / 365
  let y := yoe + era * 400
  let doy := doe - (365 * yoe + yoe / 4 - yoe / 100)
  let mp := (5 * doy + 2) / 153
  let d := doy - (153 * mp + 2) / 5 + 1
  let m := if mp < 10 then mp + 3 else mp - 9
  (if m ≤ 2 then y + 1 else y, m, d)

/-- Year of an absolute day. -/
def cYear (n : Nat) : Nat := (civilFromDays n).1

/-- Month of an absolute day, as used in the per-day seed `day + month * 31`. -/
def cMonth (n : Nat) : Nat := (civilFromDays n).2.1

/-- Day-of-month of an absolute day. -/
def cDay (n : Nat) : Nat := (civilFromDays n).2.2

/-- Python `date.weekday()`: Monday = 0 … Sunday = 6; day 0 (1970-01-01) was
a Thursday. -/
def pyWeekday (n : Nat) : Nat := (n + 3) % 7

/-- Weekday names for the `%A` directive of `strftime`. -/
def weekdayName (w : Nat) : String :=
  match w with
  | 0 => "Monday" | 1 => "Tuesday" | 2 => "Wednesday" | 3 => "Thursday"
  | 4 => "Friday" | 5 => "Saturday" | _ => "Sunday"

/-- Month names for the `%B` directive of `strftime`. -/
def monthName (m : Nat) : String :=
  match m with
  | 1 => "January" | 2 => "February" | 3 => "March" | 4 => "April"
  | 5 => "May" | 6 => "June" | 7 => "July" | 8 => "August"
  | 9 => "September" | 10 => "October" | 11 => "November" | _ => "December"

/-- Rendering of `strftime("%A, %B %d, %Y")` for the appointment date. -/
def fmtDate (n : Nat) : String :=
  weekdayName (pyWeekday n) ++ ", " ++ monthName (cMonth n) ++ " "
    ++ pad2 (cDay n) ++ ", " ++ toString (cYear n)

/-- State of the global `random` module: the last seed and the number of draws
made since.  Python re-seeds this global generator inside the appointment
loop; only the facts that seeding resets the state and that the stream is a
deterministic function of the seed are used in the proofs, which is exactly
what the spec pins of the stdlib generator ("deterministic pseudo-random
generator seeded by the calendar date"). -/
structure RNGState where
  seed : Nat
  count : Nat
  deriving DecidableEq

/-- Model of `random.seed(n)`. -/
def seedRNG (n : Nat) : RNGState := ⟨n, 0⟩

/-- Concrete deterministic stand-in for the Mersenne-Twister word stream. -/
def mixRand (seed k : Nat) : Nat :=
  (seed * 1103515245 + k * 12345 + 12489) % 2147483648

/-- One draw from the modelled generator. -/
def nextRand (s : RNGState) : Nat × RNGState :=
  (mixRand s.seed s.count, ⟨s.seed, s.count + 1⟩)

/-- Fixed doctor roster (health_new.py, lines 406-411). -/
def doctors : List (String × String) :=
  [("Dr. Sarah Johnson", "Family Medicine"), ("Dr. Michael Chen", "Internal Medicine"),
   ("Dr. Emily Rodriguez", "Family Medicine"), ("Dr. James Wilson", "Urgent Care")]

/-- Fixed candidate time slots (health_new.py, line 422). -/
def timeCandidates : List String :=
  ["9:00 AM", "10:00 AM", "11:00 AM", "2:00 PM", "3:00 PM", "4:00 PM"]

/-- Model of `random.sample(times, k=2)` on the six candidates: two draws
giving two distinct indices below 6 (the stdlib guarantees distinctness of
sampled positions). -/
def sample2 (s : RNGState) : (Nat × Nat) × RNGState :=
  let (a, s1) := nextRand s
  let i := a % 6
  let (b, s2) := nextRand s1
  let j0 := b % 5
  let j := if i ≤ j0 then j0 + 1 else j0
  ((i, j), s2)

/-- One appointment record (health_new.py, lines 429-436).  The field
`dateAbs` records the absolute day the slot was generated for; the source
stores only its rendering `date`, and `dateAbs` is carried alongside purely so
that the weekday and window statements below can speak about the day. -/
structure Appt where
  date : String
  dateAbs : Nat
  time : String
  doctor : String
  specialty : String
  hospital : String
  in_network : String
  deriving DecidableEq

/-- Construction of one appointment record. -/
def mkAppt (hospital insurance : String) (cd : Nat) (t : String) (doc : String × String) : Appt :=
  ⟨fmtDate cd, cd, t, doc.1, doc.2, hospital,
    if insurance = "" then "Verify" else "Yes"⟩

/-- Embedding of the inner `for time_slot in times` loop (health_new.py, lines
424-436): stop when six slots are already collected, otherwise draw a doctor
with `random.choice` and append the record. -/
def addSlots (hospital insurance : String) (cd : Nat) :
    List String → List Appt → RNGState → List Appt × RNGState
  | [], acc, r => (acc, r)
  | t :: rest, acc, r =>
    if 6 ≤ acc.length then (acc, r)
    else
      let (di, r1) := nextRand r
      addSlots hospital insurance cd rest
        (acc ++ [mkAppt hospital insurance cd t (doctors.getD (di % doctors.length) ("", ""))]) r1

/-- Embedding of the `while len(appointments) < 6 and days_checked < 10` loop
of `generate_appointments` (health_new.py, lines 413-438).  The first `Nat`
argument is the remaining day budget (`10 - days_checked`), the second is
`days_checked`; each scanned day is `today + days_checked + 1`; weekend days
are skipped; a business day re-seeds the generator with `day + month * 31`,
samples two distinct time slots and appends them with drawn doctors. -/
def genLoop (hospital insurance : String) (today : Nat) :
    Nat → Nat → List Appt → RNGState → List Appt × RNGState
  | 0, _, acc, r => (acc, r)
  | fuel + 1, dc, acc, r =>
    if acc.length < 6 then
      if 5 ≤ pyWeekday (today + dc + 1) then
        genLoop hospital insurance today fuel (dc + 1) acc r
      else
        let cd := today + dc + 1
        let r0 := seedRNG (cDay cd + cMonth cd * 31)
        let ((i, j), r1) := sample2 r0
        let (acc2, r2) := addSlots hospital insurance cd
          [timeCandidates.getD i "", timeCandidates.getD j ""] acc r1
        genLoop hospital insurance today fuel (dc + 1) acc2 r2
    else (acc, r)

/-- Embedding of `HealthcareAPIs.generate_appointments` (health_new.py, lines
402-440).  The current date (`datetime.now()` in the source) and the incoming
state of the global `random` module are explicit parameters. -/
def generate_appointments (hospital insurance : String) (today : Nat) (r : RNGState) :
    List Appt × RNGState :=
  genLoop hospital insurance today 10 0 [] r

/-- Unfolding equation for one iteration of the generation loop. -/
theorem genLoop_succ_eq (hospital insurance : String) (today fuel dc : Nat)
    (acc : List Appt) (r : RNGState) :
    genLoop hospital insurance today (fuel + 1) dc acc r =
      if acc.length < 6 then
        if 5 ≤ pyWeekday (today + dc + 1) then
          genLoop hospital insurance today fuel (dc + 1) acc r
        else
          let cd := today + dc + 1
          let r0 := seedRNG (cDay cd + cMonth cd * 31)
          let ((i, j), r1) := sample2 r0
          let (acc2, r2) := addSlots hospital insurance cd
            [timeCandidates.getD i "", timeCandidates.getD j ""] acc r1
          genLoop hospital insurance today fuel (dc + 1) acc2 r2
      else (acc, r) := rfl

/-- C4: appointment generation is idempotent for a fixed current date — the
slots produced do not depend on the incoming state of the global generator,
because every business day re-seeds it with `day + month * 31` before any
draw, so two calls on the same calendar date return identical lists. -/
theorem C4_idempotent_per_date (hospital insurance : String) (today : Nat)
    (r1 r2 : RNGState) :
    (generate_appointments hospital insurance today r1).1
      = (generate_appointments hospital insurance today r2).1 := by
  suffices h : ∀ fuel dc acc s1 s2,
      (genLoop hospital insurance today fuel dc acc s1).1
        = (genLoop hospital insurance today fuel dc acc s2).1 by
    exact h 10 0 [] r1 r2
  intro fuel
  induction fuel with
  | zero => intro dc acc s1 s2; rfl
  | succ n ih =>
    intro dc acc s1 s2
    rw [genLoop_succ_eq, genLoop_succ_eq]
    by_cases hfull : acc.length < 6
    · rw [if_pos hfull, if_pos hfull]
      by_cases hw : 5 ≤ pyWeekday (today + dc + 1)
      · rw [if_pos hw, if_pos hw]
        exact ih (dc + 1) acc s1 s2
      · rw [if_neg hw, if_neg hw]
    · rw [if_neg hfull, if_neg hfull]

/-- Business days among the `fuel` consecutive days starting at `start`, in
scan order: the days the generation loop does not skip. -/
def bdaysIn (start : Nat) : Nat → List Nat
  | 0 => []
  | fuel + 1 =>
    if 5 ≤ pyWeekday start then bdaysIn (start + 1) fuel
    else start :: bdaysIn (start + 1) fuel

/-- The two appointment records one scanned business day contributes: re-seed
with `day + month * 31`, sample two distinct time slots, draw a doctor for
each. -/
def pairFor (hospital insurance : String) (cd : Nat) : List Appt :=
  let r0 := seedRNG (cDay cd + cMonth cd * 31)
  let ((i, j), r1) := sample2 r0
  (addSlots hospital insurance cd
    [timeCandidates.getD i "", timeCandidates.getD j ""] [] r1).1

/-- Unfolding equation for the base case of the generation loop. -/
theorem genLoop_zero_eq (hospital insurance : String) (today dc : Nat)
    (acc : List Appt) (r : RNGState) :
    genLoop hospital insurance today 0 dc acc r = (acc, r) := rfl

/-- Unfolding equation for the zero case of `bdaysIn`. -/
theorem bdaysIn_zero_eq (s : Nat) : bdaysIn s 0 = [] := rfl

/-- Unfolding equation for the successor case of `bdaysIn`. -/
theorem bdaysIn_succ_eq (s n : Nat) :
    bdaysIn s (n + 1) =
      if 5 ≤ pyWeekday s then bdaysIn (s + 1) n else s :: bdaysIn (s + 1) n := rfl

/-- The sampled indices are distinct positions below six. -/
theorem sample2_spec (s : RNGState) (a b : Nat) (r1 : RNGState)
    (h : sample2 s = ((a, b), r1)) : a < 6 ∧ b < 6 ∧ a ≠ b := by
  simp only [sample2, nextRand] at h
  have ha := congrArg (fun p => p.1.1) h
  have hb := congrArg (fun p => p.1.2) h
  simp only at ha hb
  have h5 : mixRand s.seed (s.count + 1) % 5 < 5 := Nat.mod_lt _ (by norm_num)
  have h6 : mixRand s.seed s.count % 6 < 6 := Nat.mod_lt _ (by norm_num)
  refine ⟨?_, ?_, ?_⟩
  · rw [← ha]
    exact h6
  · rw [← hb]
    split <;> omega
  · rw [← ha, ← hb]
    split <;> omega

/-- Distinct indices below six select distinct candidate slots. -/
theorem candNe : ∀ i, i < 6 → ∀ j, j < 6 → i ≠ j →
    timeCandidates.getD i "" ≠ timeCandidates.getD j "" := by decide

/-- An index below six selects a member of the candidate list. -/
theorem candMem : ∀ i, i < 6 → timeCandidates.getD i "" ∈ timeCandidates := by decide

/-- Explicit value of the inner loop on a two-slot list from an empty
accumulator. -/
theorem addSlots_pair (hsp ins : String) (cd : Nat) (t1 t2 : String) (r : RNGState) :
    addSlots hsp ins cd [t1, t2] [] r
      = ([mkAppt hsp ins cd t1 (doctors.getD ((nextRand r).1 % doctors.length) ("", "")),
          mkAppt hsp ins cd t2
            (doctors.getD ((nextRand (nextRand r).2).1 % doctors.length) ("", ""))],
         (nextRand (nextRand r).2).2) := rfl

/-- The inner loop from a small enough accumulator only appends: the break at
six collected slots never fires. -/
theorem addSlots_append (hsp ins : String) (cd : Nat) :
    ∀ (times : List String) (acc : List Appt) (r : RNGState),
      acc.length + times.length ≤ 6 →
      addSlots hsp ins cd times acc r
        = (acc ++ (addSlots hsp ins cd times [] r).1,
           (addSlots hsp ins cd times [] r).2) := by
  intro times
  induction times with
  | nil => intro acc r _; simp [addSlots]
  | cons t rest ih =>
    intro acc r hlen
    have hacc : ¬ 6 ≤ acc.length := by
      simp only [List.length_cons] at hlen
      omega
    have hstep : ∀ acc0 : List Appt, addSlots hsp ins cd (t :: rest) acc0 r
        = if 6 ≤ acc0.length then (acc0, r)
          else addSlots hsp ins cd rest
            (acc0 ++ [mkAppt hsp ins cd t
              (doctors.getD ((nextRand r).1 % doctors.length) ("", ""))])
            (nextRand r).2 := fun acc0 => rfl
    rw [hstep acc, hstep []]
    rw [if_neg hacc, if_neg (by simp)]
    have hlen2 : (acc ++ [mkAppt hsp ins cd t
        (doctors.getD ((nextRand r).1 % doctors.length) ("", ""))]).length + rest.length ≤ 6 := by
      simp only [List.length_append, List.length_cons, List.length_nil] at hlen ⊢
      omega
    rw [ih _ _ hlen2]
    have hlen3 : (([] : List Appt) ++ [mkAppt hsp ins cd t
        (doctors.getD ((nextRand r).1 % doctors.length) ("", ""))]).length + rest.length ≤ 6 := by
      simp only [List.length_append, List.length_cons, List.length_nil] at hlen ⊢
      omega
    rw [ih _ _ hlen3]
    simp [List.append_assoc]

/-- Shape of one business-day contribution: two records for the same day with
two distinct time slots from the fixed candidate set. -/
theorem pairFor_spec (hsp ins : String) (cd : Nat) :
    ∃ t1 t2, t1 ≠ t2 ∧ t1 ∈ timeCandidates ∧ t2 ∈ timeCandidates ∧
      (pairFor hsp ins cd).map Appt.time = [t1, t2] ∧
      ∀ x ∈ pairFor hsp ins cd, x.dateAbs = cd ∧ x.time ∈ timeCandidates := by
  rcases hsam : sample2 (seedRNG (cDay cd + cMonth cd * 31)) with ⟨⟨a, b⟩, r1⟩
  obtain ⟨ha6, hb6, hne⟩ := sample2_spec _ _ _ _ hsam
  have hpf : pairFor hsp ins cd
      = (addSlots hsp ins cd
          [timeCandidates.getD a "", timeCandidates.getD b ""] [] r1).1 := by
    simp only [pairFor, hsam]
  refine ⟨timeCandidates.getD a "", timeCandidates.getD b "",
    candNe a ha6 b hb6 hne, candMem a ha6, candMem b hb6, ?_, ?_⟩
  · rw [hpf, addSlots_pair]
    rfl
  · intro x hx
    rw [hpf, addSlots_pair] at hx
    simp only [List.mem_cons, List.mem_singleton, List.not_mem_nil, or_false] at hx
    rcases hx with hx | hx
    · subst hx
      exact ⟨rfl, candMem a ha6⟩
    · subst hx
      exact ⟨rfl, candMem b hb6⟩

/-- Each business-day contribution has exactly two records. -/
theorem pairFor_length (hsp ins : String) (cd : Nat) :
    (pairFor hsp ins cd).length = 2 := by
  obtain ⟨t1, t2, -, -, -, hmap, -⟩ := pairFor_spec hsp ins cd
  have := congrArg List.length hmap
  simpa using this

/-- Characterisation of the generation loop: starting from an even accumulator
of at most six records, it appends exactly one two-record contribution for
each of the first `(6 - |acc|) / 2` business days in the remaining scan
window. -/
theorem genLoop_take_eq (hospital insurance : String) (today : Nat) :
    ∀ fuel dc acc r, acc.length % 2 = 0 → acc.length ≤ 6 →
    (genLoop hospital insurance today fuel dc acc r).1
      = acc ++ ((bdaysIn (today + dc + 1) fuel).take ((6 - acc.length) / 2)).flatMap
          (pairFor hospital insurance) := by
  intro fuel
  induction fuel with
  | zero =>
    intro dc acc r _ _
    rw [genLoop_zero_eq, bdaysIn_zero_eq]
    simp
  | succ n ih =>
    intro dc acc r heven hle
    rw [genLoop_succ_eq, bdaysIn_succ_eq]
    by_cases hfull : acc.length < 6
    · rw [if_pos hfull]
      by_cases hw : 5 ≤ pyWeekday (today + dc + 1)
      · rw [if_pos hw, if_pos hw]
        have harith : today + (dc + 1) + 1 = today + dc + 1 + 1 := by omega
        rw [ih (dc + 1) acc r heven hle, harith]
      · rw [if_neg hw, if_neg hw]
        rcases hsam : sample2 (seedRNG (cDay (today + dc + 1)
            + cMonth (today + dc + 1) * 31)) with ⟨⟨a, b⟩, r1⟩
        simp only [hsam]
        have hlen2 : acc.length
            + ([timeCandidates.getD a "", timeCandidates.getD b ""] : List String).length
            ≤ 6 := by
          simp only [List.length_cons, List.length_nil]
          omega
        rw [addSlots_append hospital insurance (today + dc + 1) _ acc r1 hlen2]
        have hpf : pairFor hospital insurance (today + dc + 1)
            = (addSlots hospital insurance (today + dc + 1)
                [timeCandidates.getD a "", timeCandidates.getD b ""] [] r1).1 := by
          simp only [pairFor, hsam]
        have hplen : (addSlots hospital insurance (today + dc + 1)
            [timeCandidates.getD a "", timeCandidates.getD b ""] [] r1).1.length = 2 := by
          rw [← hpf]
          exact pairFor_length hospital insurance (today + dc + 1)
        have heven2 : (acc ++ (addSlots hospital insurance (today + dc + 1)
            [timeCandidates.getD a "", timeCandidates.getD b ""] [] r1).1).length % 2 = 0 := by
          rw [List.length_append, hplen]
          omega
        have hle2 : (acc ++ (addSlots hospital insurance (today + dc + 1)
            [timeCandidates.getD a "", timeCandidates.getD b ""] [] r1).1).length ≤ 6 := by
          rw [List.length_append, hplen]
          omega
        rw [ih (dc + 1) _ _ heven2 hle2]
        have hk : (6 - acc.length) / 2
            = ((6 - (acc ++ (addSlots hospital insurance (today + dc + 1)
                [timeCandidates.getD a "", timeCandidates.getD b ""] [] r1).1).length) / 2) + 1 := by
          rw [List.length_append, hplen]
          omega
        rw [hk, List.take_succ_cons, List.flatMap_cons, ← hpf]
        have harith : today + (dc + 1) + 1 = today + dc + 1 + 1 := by omega
        rw [harith, List.append_assoc]
    · rw [if_neg hfull]
      have h6 : acc.length = 6 := by omega
      rw [h6]
      simp

/-- The count of business days in a window depends only on the weekday of its
first day. -/
theorem bdaysIn_length_mod : ∀ (n s : Nat),
    (bdaysIn s n).length = (bdaysIn (s % 7) n).length := by
  intro n
  induction n with
  | zero => intro s; rfl
  | succ k ih =>
    intro s
    rw [bdaysIn_succ_eq, bdaysIn_succ_eq]
    have hw : pyWeekday (s % 7) = pyWeekday s := by
      unfold pyWeekday
      omega
    rw [hw]
    have hmod : (s + 1) % 7 = (s % 7 + 1) % 7 := by omega
    by_cases h : 5 ≤ pyWeekday s
    · rw [if_pos h, if_pos h, ih (s + 1), ih (s % 7 + 1), hmod]
    · rw [if_neg h, if_neg h]
      simp only [List.length_cons]
      rw [ih (s + 1), ih (s % 7 + 1), hmod]

/-- Any ten consecutive days contain at least three business days, so the
six-slot cap is always reached inside the scan window. -/
theorem bdaysIn_ten_ge_three (s : Nat) : 3 ≤ (bdaysIn s 10).length := by
  rw [bdaysIn_length_mod 10 s]
  have h7 : s % 7 < 7 := Nat.mod_lt _ (by omega)
  have hall : ∀ w, w < 7 → 3 ≤ (bdaysIn w 10).length := by decide
  exact hall _ h7

/-- Every collected day is a business day inside the scan window. -/
theorem bdaysIn_mem : ∀ (n s x : Nat), x ∈ bdaysIn s n →
    pyWeekday x < 5 ∧ s ≤ x ∧ x < s + n := by
  intro n
  induction n with
  | zero =>
    intro s x hx
    rw [bdaysIn_zero_eq] at hx
    exact absurd hx (List.not_mem_nil x)
  | succ k ih =>
    intro s x hx
    rw [bdaysIn_succ_eq] at hx
    by_cases h : 5 ≤ pyWeekday s
    · rw [if_pos h] at hx
      obtain ⟨h1, h2, h3⟩ := ih (s + 1) x hx
      exact ⟨h1, by omega, by omega⟩
    · rw [if_neg h] at hx
      rcases List.mem_cons.mp hx with hx | hx
      · subst hx
        exact ⟨by omega, Nat.le_refl _, by omega⟩
      · obtain ⟨h1, h2, h3⟩ := ih (s + 1) x hx
        exact ⟨h1, by omega, by omega⟩

/-- Every day contributes two records, so the output length is twice the
number of days kept. -/
theorem flatMap_pairFor_length (hsp ins : String) :
    ∀ l : List Nat, (l.flatMap (pairFor hsp ins)).length = 2 * l.length := by
  intro l
  induction l with
  | nil => rfl
  | cons x t ih =>
    rw [List.flatMap_cons, List.length_append, ih, pairFor_length]
    simp only [List.length_cons]
    omega

/-- C5: for every starting date the generated list is exactly one two-record
contribution for each of the first three business days among the next ten
days — weekend days are skipped, each scanned business day contributes two
distinct time slots drawn from the fixed candidate set, and generation stops
with six slots collected, always inside the ten-day scan budget (any ten
consecutive days contain at least three business days, so the six-slot cap
fires first). -/
theorem C5_slot_generation (hosp ins : String) (today : Nat) (r : RNGState) :
    (generate_appointments hosp ins today r).1
        = ((bdaysIn (today + 1) 10).take 3).flatMap (pairFor hosp ins)
    ∧ (generate_appointments hosp ins today r).1.length = 6
    ∧ (∀ x ∈ (generate_appointments hosp ins today r).1,
        pyWeekday x.dateAbs < 5 ∧ today + 1 ≤ x.dateAbs ∧ x.dateAbs < today + 11
          ∧ x.time ∈ timeCandidates)
    ∧ (∀ cd, ∃ t1 t2, t1 ≠ t2 ∧ t1 ∈ timeCandidates ∧ t2 ∈ timeCandidates
          ∧ (pairFor hosp ins cd).map Appt.time = [t1, t2]
          ∧ ∀ x ∈ pairFor hosp ins cd, x.dateAbs = cd) := by
  have hmain : (generate_appointments hosp ins today r).1
      = ((bdaysIn (today + 1) 10).take 3).flatMap (pairFor hosp ins) := by
    unfold generate_appointments
    rw [genLoop_take_eq hosp ins today 10 0 [] r (by simp) (by simp)]
    norm_num
  have hlen3 : ((bdaysIn (today + 1) 10).take 3).length = 3 := by
    rw [List.length_take]
    have := bdaysIn_ten_ge_three (today + 1)
    omega
  refine ⟨hmain, ?_, ?_, ?_⟩
  · rw [hmain, flatMap_pairFor_length, hlen3]
  · intro x hx
    rw [hmain] at hx
    rw [List.mem_flatMap] at hx
    obtain ⟨cd, hcd, hxin⟩ := hx
    have hcd2 : cd ∈ bdaysIn (today + 1) 10 := List.take_subset _ _ hcd
    obtain ⟨hwk, hlo, hhi⟩ := bdaysIn_mem 10 (today + 1) cd hcd2
    obtain ⟨t1, t2, -, -, -, -, hall⟩ := pairFor_spec hosp ins cd
    obtain ⟨hdate, htime⟩ := hall x hxin
    rw [hdate]
    exact ⟨hwk, hlo, by omega, htime⟩
  · intro cd
    obtain ⟨t1, t2, hne, hm1, hm2, hmap, hall⟩ := pairFor_spec hosp ins cd
    exact ⟨t1, t2, hne, hm1, hm2, hmap, fun x hx => (hall x hx).1⟩

/-- C5 witness: a concrete run returns six slots. -/
theorem C5_slot_generation_witness :
    ((generate_appointments "Valley Medical Center" "United Health Care"
        20000 ⟨0, 0⟩).1).length = 6 :=
  (C5_slot_generation "Valley Medical Center" "United Health Care" 20000 ⟨0, 0⟩).2.1

/-- Round cap configured for the group chat (health_new.py, line 812:
`max_round=30`). -/
def max_round : Nat := 30

/-- Modelled from the spec: the per-session round state of the orchestrator
loop.  The loop itself is implemented by the external autogen
`GroupChat`/`GroupChatManager`; the source only configures it
(`max_round = 30`, the termination predicate).  The spec states the round
counter strictly increases and the session becomes terminal at or before
`max_rounds` (30), with the cap a hard stop independent of termination
matches. -/
structure SessionState where
  round : Nat
  terminal : Bool
  deriving DecidableEq

/-- Fresh session: round counter 0, not terminal. -/
def initSession : SessionState := ⟨0, false⟩

/-- Modelled from the spec: one round of the orchestrator loop.  The argument
records whether the termination classifier matched the round's newest message;
a terminal session does not step, otherwise the counter increments and the
session becomes terminal on a match or on reaching the cap. -/
def roundStep (termMatch : Bool) (s : SessionState) : SessionState :=
  if s.terminal then s
  else ⟨s.round + 1, termMatch || decide (max_round ≤ s.round + 1)⟩

/-- A whole conversation: fold the rounds over the termination signals. -/
def runRounds (sigs : List Bool) (s : SessionState) : SessionState :=
  sigs.foldl (fun st sig => roundStep sig st) s

/-- Invariant of the round loop: the counter never exceeds the cap, and a
session at the cap is terminal. -/
theorem runRounds_inv : ∀ (sigs : List Bool) (s : SessionState),
    s.round ≤ max_round → (max_round ≤ s.round → s.terminal = true) →
    (runRounds sigs s).round ≤ max_round
      ∧ (max_round ≤ (runRounds sigs s).round → (runRounds sigs s).terminal = true) := by
  intro sigs
  induction sigs with
  | nil => intro s h1 h2; exact ⟨h1, h2⟩
  | cons sig rest ih =>
    intro s h1 h2
    show (runRounds rest (roundStep sig s)).round ≤ max_round ∧ _
    apply ih
    · unfold roundStep
      split
      · exact h1
      · rename_i hterm
        have hlt : ¬ max_round ≤ s.round := fun hc => hterm (h2 hc)
        show s.round + 1 ≤ max_round
        omega
    · unfold roundStep
      split
      · exact h2
      · intro h30
        show (sig || decide (max_round ≤ s.round + 1)) = true
        have : max_round ≤ s.round + 1 := h30
        simp [this]

/-- A run that ends non-terminal made exactly one round per signal. -/
theorem runRounds_count : ∀ (sigs : List Bool) (s : SessionState),
    (runRounds sigs s).terminal = false →
    s.terminal = false ∧ (runRounds sigs s).round = s.round + sigs.length := by
  intro sigs
  induction sigs with
  | nil => intro s h; exact ⟨h, rfl⟩
  | cons sig rest ih =>
    intro s h
    have h' : (runRounds rest (roundStep sig s)).terminal = false := h
    obtain ⟨hstep, hcount⟩ := ih (roundStep sig s) h'
    have hsterm : s.terminal = false := by
      by_contra hc
      have hc' : s.terminal = true := by
        cases hv : s.terminal
        · exact absurd hv hc
        · rfl
      have : roundStep sig s = s := by
        unfold roundStep
        rw [if_pos hc']
      rw [this] at hstep
      rw [hstep] at hc'
      cases hc'
    refine ⟨hsterm, ?_⟩
    have hr : (roundStep sig s).round = s.round + 1 := by
      unfold roundStep
      rw [if_neg (by rw [hsterm]; exact Bool.false_ne_true)]
    have : (runRounds (sig :: rest) s) = runRounds rest (roundStep sig s) := rfl
    rw [this, hcount, hr]
    simp only [List.length_cons]
    omega

/-- C9: in the modelled round loop configured by the source, a non-terminal
session's round counter strictly increases each round, never exceeds the cap
of 30, a session whose counter reaches the cap is terminal, and any run of at
least 30 rounds ends terminal — independent of whether any termination
condition matched. -/
theorem C9_round_cap :
    (∀ (sig : Bool) (s : SessionState), s.terminal = false →
        (roundStep sig s).round = s.round + 1)
    ∧ (∀ sigs : List Bool, (runRounds sigs initSession).round ≤ max_round)
    ∧ (∀ sigs : List Bool, max_round ≤ (runRounds sigs initSession).round →
        (runRounds sigs initSession).terminal = true)
    ∧ (∀ sigs : List Bool, max_round ≤ sigs.length →
        (runRounds sigs initSession).terminal = true) := by
  have hinit1 : initSession.round ≤ max_round := by decide
  have hinit2 : max_round ≤ initSession.round → initSession.terminal = true := by decide
  refine ⟨?_, ?_, ?_, ?_⟩
  · intro sig s hs
    unfold roundStep
    rw [if_neg (by rw [hs]; exact Bool.false_ne_true)]
  · intro sigs
    exact (runRounds_inv sigs initSession hinit1 hinit2).1
  · intro sigs
    exact (runRounds_inv sigs initSession hinit1 hinit2).2
  · intro sigs hlen
    by_contra hterm
    have hterm' : (runRounds sigs initSession).terminal = false := by
      cases hv : (runRounds sigs initSession).terminal
      · rfl
      · exact absurd hv hterm
    obtain ⟨-, hcount⟩ := runRounds_count sigs initSession hterm'
    have hinv := runRounds_inv sigs initSession hinit1 hinit2
    have h30 : max_round ≤ (runRounds sigs initSession).round := by
      rw [hcount]
      have : initSession.round = 0 := rfl
      omega
    exact hterm (hinv.2 h30)

/-- C9 witness: thirty rounds with no termination match end terminal. -/
theorem C9_round_cap_witness :
    (runRounds (List.replicate 30 false) initSession).terminal = true :=
  C9_round_cap.2.2.2 (List.replicate 30 false) (by simp [max_round])

end HealthConcierge
